import Mathlib

/-!
Verification of the student CRUD API (Go + SQLite) against its specification.

The storage layer (`internal/storage/sqlite/sqlite.go`) is embedded as pure
state-passing functions over a `DB` value: the `students` table is a list of
rows plus the AUTOINCREMENT counter.  Mutating operations return the storage
result paired with the resulting database, so that "the table is unchanged"
is expressible.  The HTTP handlers (`internal/http/handlers/student/student.go`)
are embedded as functions from the already-parsed request pieces (path id,
decoded body) to an `HResult` recording the HTTP status, the error string of
the response envelope, the resulting database and whether a storage call was
made.
-/

set_option autoImplicit false

deriving instance DecidableEq for Except

namespace StudentApi

/-- A JSON-ish value as it flows through `map[string]any` in the Go code:
the update pipeline only ever carries strings and integers for the three
student columns. -/
inductive Value where
  | str (s : String)
  | int (n : Int)
deriving DecidableEq, Repr

/-- `types.Student` — one row of the `students` table
(`id INTEGER PRIMARY KEY AUTOINCREMENT, email TEXT NOT NULL UNIQUE,
name TEXT NOT NULL, age INTEGER NOT NULL`). -/
structure Student where
  id : Int
  name : String
  email : String
  age : Int
deriving DecidableEq, Repr

/-- The `students` table: its rows plus the next AUTOINCREMENT id
(1 on a fresh database). -/
structure DB where
  rows : List Student
  nextId : Int
deriving DecidableEq, Repr

/-- Storage-level errors, mirroring the error values produced by
`sqlite.go` and the underlying driver. -/
inductive StoreErr where
  /-- `sql.ErrNoRows` from `QueryRow(...).Scan` when no row matches. -/
  | noRows
  /-- the SQLite `UNIQUE constraint failed: students.email` error. -/
  | constraintViolation
  /-- `fmt.Errorf("no fields to update")` in `Update`. -/
  | noFields
  /-- prepare-time `no such column` error for an unknown column name. -/
  | badColumn
  /-- a value whose type does not fit the column. -/
  | typeMismatch
  /-- `fmt.Errorf("student not found: %w", err)` wrapping in `Delete`. -/
  | notFound (e : StoreErr)
deriving DecidableEq, Repr

/-- The error string carried by each storage error (`err.Error()` in Go),
as placed in the response envelope by `response.GeneralError`. -/
def errString : StoreErr → String
  | .noRows => "sql: no rows in result set"
  | .constraintViolation => "UNIQUE constraint failed: students.email"
  | .noFields => "no fields to update"
  | .badColumn => "no such column"
  | .typeMismatch => "datatype mismatch"
  | .notFound e => "student not found: " ++ errString e

/-- Well-formedness of a database state: ids are distinct, emails are
distinct (the UNIQUE index), every id is below the AUTOINCREMENT counter,
and the counter is at least 1 (its value on a fresh table). -/
def wf (db : DB) : Prop :=
  (db.rows.map (fun s => s.id)).Nodup ∧
  (db.rows.map (fun s => s.email)).Nodup ∧
  (∀ s ∈ db.rows, s.id < db.nextId) ∧
  1 ≤ db.nextId

instance (db : DB) : Decidable (wf db) := by
  unfold wf; infer_instance

/-- `GetStudentById` — `SELECT id, email, name, age FROM students WHERE id = ?
LIMIT 1`; `sql.ErrNoRows` when no row matches. -/
def getStudentById (db : DB) (id : Int) : Except StoreErr Student :=
  match db.rows.find? (fun s => decide (s.id = id)) with
  | some s => .ok s
  | none => .error .noRows

/-- `GetStudents` — `SELECT id, email, name, age FROM students`:
all rows in table order; an empty table gives the empty list, not an error. -/
def getStudents (db : DB) : Except StoreErr (List Student) :=
  .ok db.rows

/-- `CreateStudent` — `INSERT INTO students (name, email, age) VALUES (?, ?, ?)`
followed by `LastInsertId`.  The UNIQUE index on `email` rejects a duplicate
email; otherwise the row is appended with the next AUTOINCREMENT id. -/
def createStudent (db : DB) (name email : String) (age : Int) :
    Except StoreErr Int × DB :=
  if ∃ s ∈ db.rows, s.email = email then
    (.error .constraintViolation, db)
  else
    (.ok db.nextId,
     { rows := db.rows ++ [⟨db.nextId, name, email, age⟩],
       nextId := db.nextId + 1 })

/-- Columns of the `students` table, as usable in a `SET` clause. -/
def colNames : List String := ["id", "email", "name", "age"]

/-- Semantics of one `column = ?` assignment of the dynamic UPDATE statement
on one row.  A value whose type does not fit the column fails the
statement. -/
def applyAssign (s : Student) (kv : String × Value) : Option Student :=
  if kv.1 = "name" then
    match kv.2 with | .str v => some { s with name := v } | _ => none
  else if kv.1 = "email" then
    match kv.2 with | .str v => some { s with email := v } | _ => none
  else if kv.1 = "age" then
    match kv.2 with | .int v => some { s with age := v } | _ => none
  else if kv.1 = "id" then
    match kv.2 with | .int v => some { s with id := v } | _ => none
  else none

/-- All assignments of the `SET` clause applied in order to one row. -/
def applyAssigns (s : Student) : List (String × Value) → Option Student
  | [] => some s
  | kv :: rest =>
    match applyAssign s kv with
    | none => none
    | some s' => applyAssigns s' rest

/-- Row-by-row execution of a statement over the table; any row error aborts
the whole statement. -/
def mapRowsM (f : Student → Option Student) : List Student → Option (List Student)
  | [] => some []
  | r :: rs =>
    match f r with
    | none => none
    | some r' =>
      match mapRowsM f rs with
      | none => none
      | some rs' => some (r' :: rs')

/-- Execution of the dynamically built
`UPDATE students SET k1 = ?, ... WHERE id = ?` statement: preparing fails on
an unknown column name; otherwise every row matching the id receives the
assignments, and the statement aborts (leaving the table unchanged, SQLite's
ABORT behaviour) if the result would break the UNIQUE email index. -/
def execUpdateStmt (db : DB) (id : Int) (kvs : List (String × Value)) :
    Except StoreErr DB :=
  if ∃ kv ∈ kvs, kv.1 ∉ colNames then .error .badColumn
  else
    match mapRowsM
        (fun s => if s.id = id then applyAssigns s kvs else some s) db.rows with
    | none => .error .typeMismatch
    | some newRows =>
      if (newRows.map (fun s => s.email)).Nodup then
        .ok { db with rows := newRows }
      else .error .constraintViolation

/-- `Update` — rejects an empty update map (`"no fields to update"`), checks
the row exists via `GetStudentById`, executes the single dynamic UPDATE
statement, then re-reads and returns the updated row. -/
def update (db : DB) (id : Int) (updates : List (String × Value)) :
    Except StoreErr Student × DB :=
  if updates.isEmpty then (.error .noFields, db)
  else
    match getStudentById db id with
    | .error e => (.error e, db)
    | .ok _ =>
      match execUpdateStmt db id updates with
      | .error e => (.error e, db)
      | .ok db' =>
        match getStudentById db' id with
        | .error e => (.error e, db')
        | .ok st => (.ok st, db')

/-- `Delete` — checks existence via `GetStudentById` (wrapping its error as
`student not found: %w`), then `DELETE FROM students WHERE id = ?` and
returns `RowsAffected`. -/
def delete (db : DB) (id : Int) : Except StoreErr Int × DB :=
  match getStudentById db id with
  | .error e => (.error (.notFound e), db)
  | .ok _ =>
    let newRows := db.rows.filter (fun s => decide (s.id ≠ id))
    (.ok (Int.ofNat (db.rows.length - newRows.length)),
     { db with rows := newRows })

/-! ## Handler layer (`internal/http/handlers/student/student.go`) -/

/-- Outcome of decoding a JSON request body (`json.NewDecoder(r.Body).Decode`):
`eof` is `io.EOF` on an empty body, `malformed` carries the parse error's
message. -/
inductive DecodeErr where
  | eof
  | malformed (msg : String)
deriving DecidableEq, Repr

/-- Modelled from the spec: `internal/types/types.go` is absent from the
source tree, so the Student struct's validator tags are reconstructed from
spec §4.2 and the repository README's validation rules — email-address
syntax means a single `@` that is neither the first nor the last
character. -/
def validEmail (s : String) : Bool :=
  let cs := s.toList
  cs.count '@' == 1 && cs.head? != some '@' && cs.getLast? != some '@'

/-- Modelled from the spec: `internal/types/types.go` is absent from the
source tree; the validator tags on `types.Student` are reconstructed from
spec §4.2 and the README (name required non-empty, email required and
syntactically valid, age required in [1,120]).  Returns the list of
violation messages, in field order, as `response.ValidationError`
produces them; an empty list means the struct validates. -/
def validateStudent (st : Student) : List String :=
  (if st.name = "" then ["field Name is required"] else []) ++
  (if st.email = "" then ["field Email is required"]
   else if validEmail st.email then [] else
     ["field Email must be a valid email"]) ++
  (if st.age < 1 ∨ 120 < st.age then ["field Age is invalid"] else [])

/-- What a handler run produces: the HTTP status written, the `error` field
of the response envelope (`none` on success), the database after the
request, and whether any storage call was made. -/
structure HResult where
  status : Nat
  errMsg : Option String
  db : DB
  calledStorage : Bool
deriving DecidableEq, Repr

/-- `student.New` (the create handler), from the decoded body onward:
empty body → 400 `empty request body`; malformed JSON → 400
`invalid JSON: ...`; validator violations → 400 with the joined messages;
otherwise `CreateStudent` is called and its error surfaces as 500, success
as 201. -/
def createHandler (decoded : Except DecodeErr Student) (db : DB) : HResult :=
  match decoded with
  | .error .eof => ⟨400, some "empty request body", db, false⟩
  | .error (.malformed m) => ⟨400, some ("invalid JSON: " ++ m), db, false⟩
  | .ok st =>
    match validateStudent st with
    | [] =>
      match createStudent db st.name st.email st.age with
      | (.error e, db') => ⟨500, some (errString e), db', true⟩
      | (.ok _, db') => ⟨201, none, db', true⟩
    | msgs => ⟨400, some (String.intercalate ", " msgs), db, false⟩

/-- The allow-list of updatable fields in `student.UpdateById`. -/
def allowedKeys : List String := ["name", "email", "age"]

/-- The handler's filtering of the decoded body down to allow-listed keys. -/
def filterAllowed (body : List (String × Value)) : List (String × Value) :=
  body.filter (fun kv => decide (kv.1 ∈ allowedKeys))

/-- `student.UpdateById`, from the parsed path id and decoded body onward.
`idVal` is `none` when `strconv.ParseInt` failed.  The decode error of the
body is discarded by the source (`json.NewDecoder(r.Body).Decode(&body)`
with no error check), leaving a nil map, embedded as the empty list.
Disallowed keys are dropped, then `storage.Update` is called; its error
surfaces as 500, success as 200. -/
def updateHandler (idVal : Option Int)
    (decoded : Except DecodeErr (List (String × Value))) (db : DB) : HResult :=
  match idVal with
  | none => ⟨400, some "invalid student ID", db, false⟩
  | some id =>
    let body := match decoded with | .ok b => b | .error _ => []
    match update db id (filterAllowed body) with
    | (.error e, db') => ⟨500, some (errString e), db', true⟩
    | (.ok _, db') => ⟨200, none, db', true⟩

/-! ## Dynamic UPDATE statement text (`sqlite.go`, `Update`) -/

/-- The query-building loop of `Update`: starting from
`"UPDATE students SET "`, each field appends `k + " = ?"` (with `", "`
before every field but the first) and pushes its value onto the argument
list; finally `" WHERE id = ?"` and the id argument are appended. -/
def buildStep (acc : String × List Value × Nat) (kv : String × Value) :
    String × List Value × Nat :=
  ((if acc.2.2 > 0 then acc.1 ++ ", " else acc.1) ++ kv.1 ++ " = ?",
   acc.2.1 ++ [kv.2], acc.2.2 + 1)

/-- The full query text and argument list built by `Update` before
`Prepare`/`Exec`. -/
def buildUpdateQuery (updates : List (String × Value)) (id : Int) :
    String × List Value :=
  let r := updates.foldl buildStep ("UPDATE students SET ", [], 0)
  (r.1 ++ " WHERE id = ?", r.2.1 ++ [Value.int id])

/-! ## Router registrations -/

/-- The `ServeMux` registrations of `src/cmd/student-api/main.go`:
only the welcome route is registered there. -/
def cmdMainRoutes : List (String × String) := [("GET", "/")]

/-- The `ServeMux` registrations of the API entry point
(`src/unnamed/part_005`): create, get-by-id and list are bound. -/
def apiMainRoutes : List (String × String) :=
  [("POST", "/api/students"),
   ("GET", "/api/students/{id}"),
   ("GET", "/api/students/")]

/-- A concrete one-row database (the README's example student, id 1,
AUTOINCREMENT counter at 2), used to evaluate the theorems below on
concrete inputs. -/
def db₀ : DB := ⟨[⟨1, "John Doe", "john@example.com", 20⟩], 2⟩

/-! ## Helper lemmas -/

/-- With distinct ids, the row found for an id is the unique member carrying
that id. -/
theorem find?_id_unique {l : List Student} {id : Int} {r : Student}
    (hnd : (l.map (fun s => s.id)).Nodup) (hr : r ∈ l) (hid : r.id = id) :
    l.find? (fun s => decide (s.id = id)) = some r := by
  induction l with
  | nil => cases hr
  | cons h t ih =>
    rw [List.map_cons, List.nodup_cons] at hnd
    rcases List.mem_cons.mp hr with rfl | hrt
    · simp [List.find?_cons, hid]
    · have hne : h.id ≠ id := by
        intro he
        exact hnd.1 (he ▸ hid ▸ List.mem_map.mpr ⟨r, hrt, rfl⟩)
      simp [List.find?_cons, hne]
      exact ih hnd.2 hrt

/-- With distinct ids, deleting the rows matching a present id removes
exactly one row. -/
theorem length_filter_ne_id {l : List Student} {id : Int} {r : Student}
    (hnd : (l.map (fun s => s.id)).Nodup) (hr : r ∈ l) (hid : r.id = id) :
    (l.filter (fun s => decide (s.id ≠ id))).length + 1 = l.length := by
  induction l with
  | nil => cases hr
  | cons h t ih =>
    rw [List.map_cons, List.nodup_cons] at hnd
    rcases List.mem_cons.mp hr with rfl | hrt
    · have hall : ∀ s ∈ t, s.id ≠ id := by
        intro s hs he
        exact hnd.1 (List.mem_map.mpr ⟨s, hs, by rw [he, hid]⟩)
      have ht : t.filter (fun s => decide (s.id ≠ id)) = t :=
        List.filter_eq_self.mpr (fun s hs => by simp [hall s hs])
      simp [List.filter_cons, hid, ht]
      exact hall
    · have hne : h.id ≠ id := by
        intro he
        exact hnd.1 (he ▸ hid ▸ List.mem_map.mpr ⟨r, hrt, rfl⟩)
      rw [List.filter_cons]
      simp only [hne, decide_not, List.length_cons]
      simpa [hne] using ih hnd.2 hrt

/-- A single assignment leaves every column it does not name unchanged. -/
theorem applyAssign_fields {s s' : Student} {kv : String × Value}
    (h : applyAssign s kv = some s') :
    (kv.1 ≠ "name" → s'.name = s.name) ∧
    (kv.1 ≠ "email" → s'.email = s.email) ∧
    (kv.1 ≠ "age" → s'.age = s.age) ∧
    (kv.1 ≠ "id" → s'.id = s.id) := by
  unfold applyAssign at h
  split_ifs at h with h1 h2 h3 h4 <;>
    cases hv : kv.2 <;> rw [hv] at h <;> simp_all <;> subst h <;> simp_all

/-- Assignment lists never touch the name column unless they name it. -/
theorem applyAssigns_name {kvs : List (String × Value)} :
    ∀ {s s' : Student}, "name" ∉ kvs.map Prod.fst →
    applyAssigns s kvs = some s' → s'.name = s.name := by
  induction kvs with
  | nil => intro s s' _ h; cases h; rfl
  | cons kv rest ih =>
    intro s s' hk h
    rw [List.map_cons, List.mem_cons] at hk
    push_neg at hk
    unfold applyAssigns at h
    cases ha : applyAssign s kv with
    | none => rw [ha] at h; cases h
    | some s₁ =>
      rw [ha] at h
      rw [ih hk.2 h, (applyAssign_fields ha).1 (fun he => hk.1 he.symm)]

/-- Assignment lists never touch the email column unless they name it. -/
theorem applyAssigns_email {kvs : List (String × Value)} :
    ∀ {s s' : Student}, "email" ∉ kvs.map Prod.fst →
    applyAssigns s kvs = some s' → s'.email = s.email := by
  induction kvs with
  | nil => intro s s' _ h; cases h; rfl
  | cons kv rest ih =>
    intro s s' hk h
    rw [List.map_cons, List.mem_cons] at hk
    push_neg at hk
    unfold applyAssigns at h
    cases ha : applyAssign s kv with
    | none => rw [ha] at h; cases h
    | some s₁ =>
      rw [ha] at h
      rw [ih hk.2 h, (applyAssign_fields ha).2.1 (fun he => hk.1 he.symm)]

/-- Assignment lists never touch the age column unless they name it. -/
theorem applyAssigns_age {kvs : List (String × Value)} :
    ∀ {s s' : Student}, "age" ∉ kvs.map Prod.fst →
    applyAssigns s kvs = some s' → s'.age = s.age := by
  induction kvs with
  | nil => intro s s' _ h; cases h; rfl
  | cons kv rest ih =>
    intro s s' hk h
    rw [List.map_cons, List.mem_cons] at hk
    push_neg at hk
    unfold applyAssigns at h
    cases ha : applyAssign s kv with
    | none => rw [ha] at h; cases h
    | some s₁ =>
      rw [ha] at h
      rw [ih hk.2 h, (applyAssign_fields ha).2.2.1 (fun he => hk.1 he.symm)]

/-- Allow-listed assignment lists (no `id` key) preserve the row id. -/
theorem applyAssigns_id {kvs : List (String × Value)} :
    ∀ {s s' : Student}, (∀ kv ∈ kvs, kv.1 ∈ allowedKeys) →
    applyAssigns s kvs = some s' → s'.id = s.id := by
  induction kvs with
  | nil => intro s s' _ h; cases h; rfl
  | cons kv rest ih =>
    intro s s' hk h
    unfold applyAssigns at h
    cases ha : applyAssign s kv with
    | none => rw [ha] at h; cases h
    | some s₁ =>
      rw [ha] at h
      have hkv : kv.1 ∈ allowedKeys := hk kv (List.mem_cons_self kv rest)
      have hne : kv.1 ≠ "id" := by
        intro he
        rw [he] at hkv
        simp [allowedKeys] at hkv
      rw [ih (fun x hx => hk x (List.mem_cons_of_mem kv hx)) h,
        (applyAssign_fields ha).2.2.2 hne]

/-- A row-wise total function maps the table pointwise. -/
theorem mapRowsM_total {f : Student → Option Student} {g : Student → Student}
    {l : List Student} (h : ∀ r ∈ l, f r = some (g r)) :
    mapRowsM f l = some (l.map g) := by
  induction l with
  | nil => rfl
  | cons r rs ih =>
    unfold mapRowsM
    rw [h r (List.mem_cons_self r rs),
      ih (fun x hx => h x (List.mem_cons_of_mem r hx))]
    rfl

/-- Rows the statement leaves alone survive into the new table. -/
theorem mapRowsM_mem_fixed {f : Student → Option Student}
    {l l' : List Student} (h : mapRowsM f l = some l') :
    ∀ r ∈ l, f r = some r → r ∈ l' := by
  induction l generalizing l' with
  | nil => intro r hr; cases hr
  | cons x xs ih =>
    intro r hr hfix
    unfold mapRowsM at h
    cases hx : f x with
    | none => rw [hx] at h; cases h
    | some x' =>
      rw [hx] at h
      cases hxs : mapRowsM f xs with
      | none => rw [hxs] at h; cases h
      | some xs' =>
        rw [hxs] at h
        cases h
        rcases List.mem_cons.mp hr with rfl | hrt
        · rw [hfix] at hx
          cases hx
          exact List.mem_cons_self _ _
        · exact List.mem_cons_of_mem _ (ih hxs r hrt hfix)

/-- If the per-row function preserves a predicate, `find?` on the new table
returns the image of the row `find?` returned on the old one. -/
theorem mapRowsM_find? {f : Student → Option Student} {p : Student → Bool}
    {l l' : List Student} (h : mapRowsM f l = some l')
    (hp : ∀ r r', f r = some r' → p r' = p r) :
    ∀ {r₀ : Student}, l.find? p = some r₀ →
      ∃ r₀', f r₀ = some r₀' ∧ l'.find? p = some r₀' := by
  induction l generalizing l' with
  | nil => intro r₀ hf; cases hf
  | cons x xs ih =>
    intro r₀ hf
    unfold mapRowsM at h
    cases hx : f x with
    | none => rw [hx] at h; cases h
    | some x' =>
      rw [hx] at h
      cases hxs : mapRowsM f xs with
      | none => rw [hxs] at h; cases h
      | some xs' =>
        rw [hxs] at h
        cases h
        rw [List.find?_cons] at hf
        cases hpx : p x with
        | true =>
          rw [hpx] at hf
          cases hf
          exact ⟨x', hx, by rw [List.find?_cons, hp x x' hx, hpx]⟩
        | false =>
          rw [hpx] at hf
          obtain ⟨r₀', hfr, hfind⟩ := ih hxs hf
          exact ⟨r₀', hfr, by rw [List.find?_cons, hp x x' hx, hpx]; exact hfind⟩

/-- The argument list accumulated by the query-building loop is the initial
accumulator followed by the field values in order. -/
theorem foldl_buildStep_args (ups : List (String × Value)) :
    ∀ (s : String) (a : List Value) (n : Nat),
      (ups.foldl buildStep (s, a, n)).2.1 = a ++ ups.map Prod.snd := by
  induction ups with
  | nil => intro s a n; simp
  | cons kv rest ih =>
    intro s a n
    rw [List.foldl_cons]
    show (rest.foldl buildStep
      ((if n > 0 then s ++ ", " else s) ++ kv.1 ++ " = ?",
        a ++ [kv.2], n + 1)).2.1 = _
    rw [ih]
    simp

/-- The query text accumulated by the loop depends only on the keys: mapping
the values arbitrarily (with any argument accumulators) leaves it
unchanged. -/
theorem foldl_buildStep_text (v : Value → Value) (ups : List (String × Value)) :
    ∀ (s : String) (a a' : List Value) (n : Nat),
      ((ups.map (fun kv => (kv.1, v kv.2))).foldl buildStep (s, a, n)).1 =
      (ups.foldl buildStep (s, a', n)).1 := by
  induction ups with
  | nil => intro s a a' n; rfl
  | cons kv rest ih =>
    intro s a a' n
    rw [List.map_cons, List.foldl_cons, List.foldl_cons]
    exact ih _ _ _ _

/-- A successful read inverts to a successful `find?`. -/
theorem getStudentById_ok {db : DB} {id : Int} {r₀ : Student}
    (h : getStudentById db id = .ok r₀) :
    db.rows.find? (fun s => decide (s.id = id)) = some r₀ := by
  unfold getStudentById at h
  cases hf : db.rows.find? (fun s => decide (s.id = id)) with
  | none => rw [hf] at h; cases h
  | some r =>
    rw [hf] at h
    injection h with h1
    rw [h1]

/-- A successful `find?` makes the read succeed. -/
theorem getStudentById_of_find? (db : DB) {id : Int} {r : Student}
    (hf : db.rows.find? (fun s => decide (s.id = id)) = some r) :
    getStudentById db id = .ok r := by
  unfold getStudentById
  rw [hf]

/-- A successful UPDATE statement is the row-wise application of its
assignments. -/
theorem execUpdateStmt_ok {db : DB} {id : Int} {kvs : List (String × Value)}
    {db₁ : DB} (h : execUpdateStmt db id kvs = .ok db₁) :
    ∃ newRows,
      mapRowsM (fun s => if s.id = id then applyAssigns s kvs else some s)
        db.rows = some newRows ∧
      db₁ = { db with rows := newRows } := by
  unfold execUpdateStmt at h
  by_cases hb : ∃ kv ∈ kvs, kv.1 ∉ colNames
  · rw [if_pos hb] at h; cases h
  · rw [if_neg hb] at h
    cases hm : mapRowsM
        (fun s => if s.id = id then applyAssigns s kvs else some s) db.rows with
    | none => rw [hm] at h; cases h
    | some newRows =>
      rw [hm] at h
      dsimp only at h
      split_ifs at h
      injection h with h1
      exact ⟨newRows, rfl, h1.symm⟩

/-- Over the allow-listed keys, the per-row statement function preserves the
id predicate used by `find?`. -/
theorem rowFun_preserves_idPred {id : Int} {kvs : List (String × Value)}
    (hkeys : ∀ kv ∈ kvs, kv.1 ∈ allowedKeys) :
    ∀ r r' : Student,
      (if r.id = id then applyAssigns r kvs else some r) = some r' →
      (fun s => decide (s.id = id)) r' = (fun s => decide (s.id = id)) r := by
  intro r r' hfr
  by_cases hid : r.id = id
  · rw [if_pos hid] at hfr
    have := applyAssigns_id hkeys hfr
    simp [this]
  · rw [if_neg hid] at hfr
    injection hfr with h1
    rw [h1]

end StudentApi

namespace StudentApi

example : getStudentById ⟨[⟨1, "John", "john@example.com", 20⟩], 2⟩ 1 =
    .ok ⟨1, "John", "john@example.com", 20⟩ := by decide

example : (createStudent ⟨[], 1⟩ "John" "john@example.com" 20).1 = .ok 1 := by
  decide

example :
    delete ⟨[⟨1, "John", "john@example.com", 20⟩], 2⟩ 1 = (.ok 1, ⟨[], 2⟩) := by
  decide

example :
    (update ⟨[⟨1, "John", "john@example.com", 20⟩], 2⟩ 1
      [("age", Value.int 21)]).1 = .ok ⟨1, "John", "john@example.com", 21⟩ := by
  decide

example : validEmail "john@example.com" = true := by decide

example : validateStudent ⟨0, "John", "john@example.com", 20⟩ = [] := by decide

example : validateStudent ⟨0, "John", "john@example.com", 500⟩ =
    ["field Age is invalid"] := by decide

example :
    updateHandler (some 1) (.error (.malformed "unexpected end of JSON input"))
      ⟨[⟨1, "John", "john@example.com", 20⟩], 2⟩ =
    ⟨500, some "no fields to update",
      ⟨[⟨1, "John", "john@example.com", 20⟩], 2⟩, true⟩ := by decide

example :
    buildUpdateQuery [("age", Value.int 21), ("name", Value.str "Jane")] 1 =
    ("UPDATE students SET age = ?, name = ? WHERE id = ?",
     [Value.int 21, Value.str "Jane", Value.int 1]) := by decide

/-! ## Claim theorems -/

/-- C1: for every valid input (name non-empty, email syntactically valid,
age in [1,120]) whose email is not already stored, `CreateStudent` followed
by `GetStudentById` on the returned id yields a Student whose name, email
and age equal the inputs unchanged, and the returned id is a positive
integer. -/
theorem create_then_get_roundtrip (db : DB) (name email : String) (age : Int)
    (hwf : wf db) (_hname : name ≠ "") (_hemail : validEmail email = true)
    (_hage : 1 ≤ age ∧ age ≤ 120)
    (hfresh : ∀ s ∈ db.rows, s.email ≠ email) :
    0 < db.nextId ∧
    ∃ db', createStudent db name email age = (.ok db.nextId, db') ∧
      getStudentById db' db.nextId = .ok ⟨db.nextId, name, email, age⟩ := by
  obtain ⟨hnid, hnem, hlt, hone⟩ := hwf
  refine ⟨by omega, ?_⟩
  have hno : ¬ ∃ s ∈ db.rows, s.email = email := by
    rintro ⟨s, hs, he⟩
    exact hfresh s hs he
  refine ⟨⟨db.rows ++ [⟨db.nextId, name, email, age⟩], db.nextId + 1⟩, ?_, ?_⟩
  · unfold createStudent
    rw [if_neg hno]
  · unfold getStudentById
    have hold : db.rows.find? (fun s => decide (s.id = db.nextId)) = none :=
      List.find?_eq_none.mpr (fun s hs => by
        simp only [decide_eq_true_eq]
        exact Int.ne_of_lt (hlt s hs))
    rw [List.find?_append, hold]
    simp [List.find?_cons]

/-- Witness for C1 at the empty database and the README's example input. -/
theorem create_then_get_roundtrip_witness :
    0 < (⟨[], 1⟩ : DB).nextId ∧
    ∃ db', createStudent ⟨[], 1⟩ "John Doe" "john@example.com" 20 =
        (.ok (⟨[], 1⟩ : DB).nextId, db') ∧
      getStudentById db' (⟨[], 1⟩ : DB).nextId =
        .ok ⟨(⟨[], 1⟩ : DB).nextId, "John Doe", "john@example.com", 20⟩ :=
  create_then_get_roundtrip ⟨[], 1⟩ "John Doe" "john@example.com" 20
    (by decide) (by decide) (by decide) (by decide) (by decide)

/-- C4: `Delete` on an existing id returns 1 and a subsequent
`GetStudentById` fails with the no-rows error; `Delete` on a nonexistent id
fails with the wrapped not-found error, returning neither 1 nor a bare 0. -/
theorem delete_existing_and_missing (db : DB) (id : Int) (hwf : wf db) :
    ((∃ r ∈ db.rows, r.id = id) →
      ∃ db', delete db id = (.ok 1, db') ∧
        getStudentById db' id = .error .noRows) ∧
    ((∀ r ∈ db.rows, r.id ≠ id) →
      delete db id = (.error (.notFound .noRows), db)) := by
  obtain ⟨hnid, -, -, -⟩ := hwf
  constructor
  · rintro ⟨r, hr, hrid⟩
    have hget : getStudentById db id = .ok r := by
      unfold getStudentById
      rw [find?_id_unique hnid hr hrid]
    have hlen := length_filter_ne_id hnid hr hrid
    refine ⟨⟨db.rows.filter (fun s => decide (s.id ≠ id)), db.nextId⟩, ?_, ?_⟩
    · unfold delete
      rw [hget]
      simp only [decide_not] at hlen
      simp
      omega
    · unfold getStudentById
      have hnone :
          (db.rows.filter (fun s => decide (s.id ≠ id))).find?
            (fun s => decide (s.id = id)) = none :=
        List.find?_eq_none.mpr (fun x hx => by
          have := (List.mem_filter.mp hx).2
          simp only [decide_eq_true_eq] at this ⊢
          exact this)
      rw [hnone]
  · intro hall
    have hget : getStudentById db id = .error .noRows := by
      unfold getStudentById
      rw [List.find?_eq_none.mpr (fun x hx => by
        simp only [decide_eq_true_eq]
        exact hall x hx)]
    unfold delete
    rw [hget]

/-- Witness for C4: deleting the one stored student succeeds with count 1
and the row is gone; deleting from the empty table fails not-found. -/
theorem delete_existing_and_missing_witness :
    (∃ db', delete db₀ 1 = (.ok 1, db') ∧
      getStudentById db' 1 = .error .noRows) ∧
    delete ⟨[], 1⟩ 2 = (.error (.notFound .noRows), ⟨[], 1⟩) :=
  ⟨(delete_existing_and_missing db₀ 1 (by decide)).1
      ⟨⟨1, "John Doe", "john@example.com", 20⟩, by decide, by decide⟩,
   (delete_existing_and_missing ⟨[], 1⟩ 2 (by decide)).2 (by decide)⟩

/-- C5: creating a second student with an already-stored email fails with
the UNIQUE-constraint violation, leaves the table unchanged, and the first
student remains retrievable unchanged by `GetStudentById`. -/
theorem create_duplicate_email_fails (db : DB) (n2 e : String) (a2 : Int)
    (r : Student) (hwf : wf db) (hr : r ∈ db.rows) (he : r.email = e) :
    createStudent db n2 e a2 = (.error .constraintViolation, db) ∧
    getStudentById db r.id = .ok r := by
  obtain ⟨hnid, -, -, -⟩ := hwf
  constructor
  · unfold createStudent
    rw [if_pos ⟨r, hr, he⟩]
  · unfold getStudentById
    rw [find?_id_unique hnid hr rfl]

/-- Witness for C5 on the one-row database. -/
theorem create_duplicate_email_fails_witness :
    createStudent db₀ "Jane" "john@example.com" 30 =
      (.error .constraintViolation, db₀) ∧
    getStudentById db₀ 1 = .ok ⟨1, "John Doe", "john@example.com", 20⟩ :=
  create_duplicate_email_fails db₀ "Jane" "john@example.com" 30
    ⟨1, "John Doe", "john@example.com", 20⟩ (by decide) (by decide) (by decide)

/-- C6: `Update` with an empty field-change map fails with
`no fields to update` leaving the table untouched, and a PATCH body holding
only disallowed keys reaches `Update` as the empty field-change set, whose
error the handler surfaces with HTTP status 500. -/
theorem update_empty_and_disallowed_keys (db : DB) (id : Int)
    (body : List (String × Value))
    (hbody : ∀ kv ∈ body, kv.1 ∉ allowedKeys) :
    update db id [] = (.error .noFields, db) ∧
    updateHandler (some id) (.ok body) db =
      ⟨500, some "no fields to update", db, true⟩ := by
  have hemp : update db id [] = (.error .noFields, db) := rfl
  refine ⟨hemp, ?_⟩
  have hfilter : filterAllowed body = [] :=
    List.filter_eq_nil_iff.mpr (fun kv hkv => by simp [hbody kv hkv])
  unfold updateHandler
  simp [hfilter, hemp, errString]

/-- Witness for C6: a body with only the disallowed key `foo`. -/
theorem update_empty_and_disallowed_keys_witness :
    update db₀ 1 [] = (.error .noFields, db₀) ∧
    updateHandler (some 1) (.ok [("foo", Value.str "x")]) db₀ =
      ⟨500, some "no fields to update", db₀, true⟩ :=
  update_empty_and_disallowed_keys db₀ 1 [("foo", Value.str "x")] (by decide)

/-- C10: over the documented domain of `Update` (field-change keys drawn
from the mutable fields `name`, `email`, `age`), whenever `Update` returns
an error — empty update set, missing row, or failing UPDATE statement such
as a duplicate-email constraint violation — the stored table is
unchanged. -/
theorem update_error_leaves_table_unchanged (db : DB) (id : Int)
    (kvs : List (String × Value)) (e : StoreErr) (db' : DB)
    (hkeys : ∀ kv ∈ kvs, kv.1 ∈ allowedKeys)
    (h : update db id kvs = (.error e, db')) : db' = db := by
  unfold update at h
  cases kvs with
  | nil =>
    injection h with h1 h2
    exact h2.symm
  | cons kv0 rest =>
    rw [if_neg (by simp)] at h
    cases hg : getStudentById db id with
    | error e' =>
      rw [hg] at h
      injection h with h1 h2
      exact h2.symm
    | ok r₀ =>
      rw [hg] at h
      cases hx : execUpdateStmt db id (kv0 :: rest) with
      | error e' =>
        rw [hx] at h
        injection h with h1 h2
        exact h2.symm
      | ok db₁ =>
        rw [hx] at h
        exfalso
        obtain ⟨newRows, hm, hdb₁⟩ := execUpdateStmt_ok hx
        obtain ⟨r₀', _, hfind'⟩ :=
          mapRowsM_find? hm (rowFun_preserves_idPred hkeys)
            (getStudentById_ok hg)
        have hre : getStudentById db₁ id = .ok r₀' :=
          getStudentById_of_find? db₁ (by rw [hdb₁]; exact hfind')
        dsimp only at h
        rw [hre] at h
        injection h with h1 h2
        exact Except.noConfusion h1

/-- Witness for C10: updating a nonexistent id fails and returns the
database unchanged. -/
theorem update_error_leaves_table_unchanged_witness :
    (update db₀ 2 [("age", Value.int 30)]).2 = db₀ :=
  update_error_leaves_table_unchanged db₀ 2 [("age", Value.int 30)]
    .noRows (update db₀ 2 [("age", Value.int 30)]).2 (by decide) (by decide)

/-- C2: over the documented domain of `Update`, a successful call changes
only the supplied fields of the target row — any mutable field whose key is
absent from the field-change map keeps its prior value, every other row is
untouched — and the call re-reads and returns the updated row; in
particular an age-only update succeeds and retains the prior name and
email while storing the new age. -/
theorem update_changes_only_supplied_fields (db : DB) (id : Int)
    (kvs : List (String × Value)) (r₀ st : Student) (db' : DB)
    (hwf : wf db)
    (hkeys : ∀ kv ∈ kvs, kv.1 ∈ allowedKeys)
    (hr : getStudentById db id = .ok r₀)
    (h : update db id kvs = (.ok st, db')) :
    ("name" ∉ kvs.map Prod.fst → st.name = r₀.name) ∧
    ("email" ∉ kvs.map Prod.fst → st.email = r₀.email) ∧
    ("age" ∉ kvs.map Prod.fst → st.age = r₀.age) ∧
    st.id = r₀.id ∧
    (∀ r ∈ db.rows, r.id ≠ id → r ∈ db'.rows) ∧
    getStudentById db' id = .ok st ∧
    (∀ a : Int, ∃ st' db'',
      update db id [("age", Value.int a)] = (.ok st', db'') ∧
      st'.id = r₀.id ∧ st'.name = r₀.name ∧ st'.email = r₀.email ∧
      st'.age = a) := by
  have hfind := getStudentById_ok hr
  have hrid : r₀.id = id := by
    have := List.find?_some hfind
    simpa using this
  -- dissect the successful general call
  unfold update at h
  cases kvs with
  | nil => cases h
  | cons kv0 rest =>
    rw [if_neg (by simp), hr] at h
    cases hx : execUpdateStmt db id (kv0 :: rest) with
    | error e' => rw [hx] at h; cases h
    | ok db₁ =>
      rw [hx] at h
      obtain ⟨newRows, hm, hdb₁⟩ := execUpdateStmt_ok hx
      obtain ⟨r₀', hfr₀, hfind'⟩ :=
        mapRowsM_find? hm (rowFun_preserves_idPred hkeys)
          (getStudentById_ok hr)
      have hre : getStudentById db₁ id = .ok r₀' :=
        getStudentById_of_find? db₁ (by rw [hdb₁]; exact hfind')
      dsimp only at h
      rw [hre] at h
      injection h with h1 h2
      injection h1 with h1
      subst h1
      subst h2
      rw [if_pos hrid] at hfr₀
      refine ⟨fun hn => applyAssigns_name hn hfr₀,
        fun hn => applyAssigns_email hn hfr₀,
        fun hn => applyAssigns_age hn hfr₀,
        applyAssigns_id hkeys hfr₀,
        ?_, hre, ?_⟩
      · intro r hrmem hrne
        rw [hdb₁]
        exact mapRowsM_mem_fixed hm r hrmem (by rw [if_neg hrne])
      · -- the age-only instance, built directly
        intro a
        have hfun : ∀ r ∈ db.rows,
            (if r.id = id then applyAssigns r [("age", Value.int a)]
             else some r) =
            some (if r.id = id then { r with age := a } else r) := by
          intro r _
          by_cases hid : r.id = id
          · rw [if_pos hid, if_pos hid]
            rfl
          · rw [if_neg hid, if_neg hid]
        have hm' : mapRowsM
            (fun s => if s.id = id then applyAssigns s [("age", Value.int a)]
              else some s) db.rows =
            some (db.rows.map
              (fun r => if r.id = id then { r with age := a } else r)) :=
          mapRowsM_total hfun
        have hemails : (db.rows.map
              (fun r => if r.id = id then { r with age := a } else r)).map
              (fun s => s.email) =
            db.rows.map (fun s => s.email) := by
          rw [List.map_map]
          exact List.map_congr_left (fun r _ => by
            by_cases hid : r.id = id <;> simp [hid])
        have hexec : execUpdateStmt db id [("age", Value.int a)] =
            .ok ⟨db.rows.map
              (fun r => if r.id = id then { r with age := a } else r),
              db.nextId⟩ := by
          unfold execUpdateStmt
          rw [if_neg (by simp [colNames]), hm']
          dsimp only
          rw [if_pos (by rw [hemails]; exact hwf.2.1)]
        have hfind₂ : (db.rows.map
              (fun r => if r.id = id then { r with age := a } else r)).find?
              (fun s => decide (s.id = id)) =
            some { r₀ with age := a } := by
          obtain ⟨r₁, hfr₁, hfind₁⟩ :=
            mapRowsM_find? hm' (by
              intro r r' hfr
              by_cases hid : r.id = id
              · rw [if_pos hid] at hfr
                have h4 : applyAssigns r [("age", Value.int a)] =
                    some { r with age := a } := rfl
                rw [h4] at hfr
                injection hfr with h5
                subst h5
                simp [hid]
              · rw [if_neg hid] at hfr
                injection hfr with h5
                subst h5
                rfl) hfind
          rw [if_pos hrid] at hfr₁
          injection hfr₁ with h3
          subst h3
          exact hfind₁
        have hget₂ : getStudentById
            ⟨db.rows.map (fun r => if r.id = id then { r with age := a } else r),
              db.nextId⟩ id = .ok { r₀ with age := a } :=
          getStudentById_of_find?
            ⟨db.rows.map (fun r => if r.id = id then { r with age := a } else r),
              db.nextId⟩ hfind₂
        refine ⟨{ r₀ with age := a },
          ⟨db.rows.map (fun r => if r.id = id then { r with age := a } else r),
            db.nextId⟩, ?_, rfl, rfl, rfl, rfl⟩
        unfold update
        rw [if_neg (by simp), hr]
        dsimp only
        rw [hexec]
        dsimp only
        rw [hget₂]

/-- Witness for C2: a name-only update on the one-row database keeps email
and age, and the age-only instance holds there too. -/
theorem update_changes_only_supplied_fields_witness :
    (("name" ∉ [("name", Value.str "Jane")].map Prod.fst →
      ("Jane" : String) = "John Doe") ∧
    ("email" ∉ [("name", Value.str "Jane")].map Prod.fst →
      ("john@example.com" : String) = "john@example.com") ∧
    ("age" ∉ [("name", Value.str "Jane")].map Prod.fst →
      (20 : Int) = 20) ∧
    (1 : Int) = 1 ∧
    (∀ r ∈ db₀.rows, r.id ≠ 1 →
      r ∈ (⟨[⟨1, "Jane", "john@example.com", 20⟩], 2⟩ : DB).rows) ∧
    getStudentById ⟨[⟨1, "Jane", "john@example.com", 20⟩], 2⟩ 1 =
      .ok ⟨1, "Jane", "john@example.com", 20⟩ ∧
    (∀ a : Int, ∃ st' db'',
      update db₀ 1 [("age", Value.int a)] = (.ok st', db'') ∧
      st'.id = 1 ∧ st'.name = "John Doe" ∧ st'.email = "john@example.com" ∧
      st'.age = a)) :=
  update_changes_only_supplied_fields db₀ 1 [("name", Value.str "Jane")]
    ⟨1, "John Doe", "john@example.com", 20⟩
    ⟨1, "Jane", "john@example.com", 20⟩
    ⟨[⟨1, "Jane", "john@example.com", 20⟩], 2⟩
    (by decide) (by decide) (by decide) (by decide)

/-- C3 (code bug): the routers bind create, get-by-id and list, but neither
`ServeMux` registers any PATCH or DELETE pattern, so no request can reach
the update or delete handler. -/
theorem router_binds_no_patch_or_delete :
    ("POST", "/api/students") ∈ apiMainRoutes ∧
    ("GET", "/api/students/{id}") ∈ apiMainRoutes ∧
    ("GET", "/api/students/") ∈ apiMainRoutes ∧
    apiMainRoutes.all
      (fun r => !(r.1 == "PATCH") && !(r.1 == "DELETE")) = true ∧
    cmdMainRoutes.all
      (fun r => !(r.1 == "PATCH") && !(r.1 == "DELETE")) = true := by
  decide

/-- C7 counterexample: a PATCH carrying the out-of-range age 500 on an
existing student is not rejected — the handler calls storage, the update
succeeds with HTTP 200, and age 500 is stored, so no validation of supplied
update fields happens before the storage call. -/
theorem update_no_validation_counterexample :
    updateHandler (some 1) (.ok [("age", Value.int 500)]) db₀ =
      ⟨200, none, ⟨[⟨1, "John Doe", "john@example.com", 500⟩], 2⟩, true⟩ ∧
    ¬ (1 ≤ (500 : Int) ∧ (500 : Int) ≤ 120) := by
  exact ⟨by decide, by decide⟩

/-- C7 amended: on create the full validation rules are applied before any
storage call — an invalid struct yields 400 with the joined violation
messages and storage untouched, a valid one reaches storage — while on
update no field-value validation is performed at all: for every id and
decoded body the handler always calls storage, passing the allow-listed
fields through unvalidated. -/
theorem create_validates_update_does_not (st : Student) (db : DB) (id : Int)
    (body : List (String × Value)) :
    (validateStudent st ≠ [] →
      createHandler (.ok st) db =
        ⟨400, some (String.intercalate ", " (validateStudent st)), db, false⟩) ∧
    (validateStudent st = [] →
      (createHandler (.ok st) db).calledStorage = true) ∧
    (updateHandler (some id) (.ok body) db).calledStorage = true := by
  refine ⟨?_, ?_, ?_⟩
  · intro hv
    unfold createHandler
    dsimp only
    cases hval : validateStudent st with
    | nil => exact absurd hval hv
    | cons m ms => rfl
  · intro hv
    unfold createHandler
    dsimp only
    rw [hv]
    dsimp only
    rcases hc : createStudent db st.name st.email st.age with ⟨res, db2⟩
    cases res <;> rfl
  · unfold updateHandler
    dsimp only
    rcases hu : update db id (filterAllowed body) with ⟨res, db2⟩
    cases res <;> rfl

/-- Witness for C7 amended: an age-500 create is rejected with 400 before
storage; a valid create reaches storage; an update always reaches
storage. -/
theorem create_validates_update_does_not_witness :
    createHandler (.ok ⟨0, "Ann", "ann@example.com", 500⟩) db₀ =
      ⟨400, some "field Age is invalid", db₀, false⟩ ∧
    (createHandler (.ok ⟨0, "Jane", "jane@example.com", 21⟩)
      db₀).calledStorage = true ∧
    (updateHandler (some 1) (.ok [("age", Value.int 21)])
      db₀).calledStorage = true :=
  ⟨((create_validates_update_does_not ⟨0, "Ann", "ann@example.com", 500⟩
      db₀ 1 []).1 (by decide)).trans (by decide),
   (create_validates_update_does_not ⟨0, "Jane", "jane@example.com", 21⟩
      db₀ 1 []).2.1 (by decide),
   (create_validates_update_does_not ⟨0, "Jane", "jane@example.com", 21⟩
      db₀ 1 [("age", Value.int 21)]).2.2⟩

/-- C8 counterexample: a malformed update body is not answered with 400 —
the decode error is discarded, storage is called with an empty field set,
and the failure surfaces as 500. -/
theorem update_malformed_json_counterexample :
    updateHandler (some 1) (.error (.malformed "invalid character"))
      db₀ = ⟨500, some "no fields to update", db₀, true⟩ := by
  decide

/-- C8 amended: on create a malformed JSON body yields 400 with an
`invalid JSON:`-wrapped parse error and no storage call; on update the
parse error is ignored, the handler proceeds with the empty field map,
calls storage, and the resulting failure surfaces as 500. -/
theorem malformed_json_create_400_update_500 (m : String) (db : DB)
    (id : Int) :
    createHandler (.error (.malformed m)) db =
      ⟨400, some ("invalid JSON: " ++ m), db, false⟩ ∧
    updateHandler (some id) (.error (.malformed m)) db =
      ⟨500, some "no fields to update", db, true⟩ :=
  ⟨rfl, rfl⟩

/-- C9: in the handler-plus-storage update pipeline every column name of
the dynamically built UPDATE statement comes from the fixed allow-list,
the SQL text depends only on those keys (mapping the values arbitrarily
leaves it unchanged, so no value is ever concatenated into it), and all
values travel in the parameter list. -/
theorem update_query_from_allowlist (body : List (String × Value))
    (id : Int) :
    (∀ kv ∈ filterAllowed body, kv.1 ∈ allowedKeys) ∧
    (buildUpdateQuery (filterAllowed body) id).2 =
      (filterAllowed body).map Prod.snd ++ [Value.int id] ∧
    (∀ v : Value → Value,
      (buildUpdateQuery
        ((filterAllowed body).map (fun kv => (kv.1, v kv.2))) id).1 =
      (buildUpdateQuery (filterAllowed body) id).1) := by
  refine ⟨?_, ?_, ?_⟩
  · intro kv hkv
    have := (List.mem_filter.mp hkv).2
    simpa using this
  · unfold buildUpdateQuery
    dsimp only
    rw [foldl_buildStep_args]
    simp
  · intro v
    unfold buildUpdateQuery
    dsimp only
    rw [foldl_buildStep_text v (filterAllowed body) "UPDATE students SET "
      [] [] 0]

/-- Witness for C9: with one allowed and one disallowed key, the surviving
key is allow-listed and the arguments are exactly the value plus the id. -/
theorem update_query_from_allowlist_witness :
    ("age" ∈ allowedKeys) ∧
    (buildUpdateQuery (filterAllowed
      [("age", Value.int 21), ("drop", Value.str "x")]) 1).2 =
        [Value.int 21, Value.int 1] :=
  ⟨(update_query_from_allowlist
      [("age", Value.int 21), ("drop", Value.str "x")] 1).1
      ("age", Value.int 21) (by decide),
   ((update_query_from_allowlist
      [("age", Value.int 21), ("drop", Value.str "x")] 1).2.1).trans
      (by decide)⟩

end StudentApi
